import Mathlib

/-!
Verification of the tango-miner core against its specification.

Shallow embedding conventions:
* Python `str` values are modelled as `List Char` (`PyStr`); Python string
  comparison is list equality.
* Python `dict` values are modelled as insertion-ordered association lists
  (`dictLookup` / `dictSet` / `dictErase`).
* Python machine integers are `Int` / `Nat` (no overflow is possible in the
  quantities involved).
* a Python function that can raise is modelled with `Option` (`none` = raise).
-/

set_option linter.unusedVariables false

abbrev PyStr := List Char

/-- Lookup in an insertion-ordered association list (Python `dict.get`). -/
def dictLookup {κ α : Type} [DecidableEq κ] : List (κ × α) → κ → Option α
  | [], _ => none
  | (k2, v) :: rest, k => if k2 = k then some v else dictLookup rest k

/-- Update-or-append in an insertion-ordered association list
(Python `d[k] = v`: an existing key keeps its position). -/
def dictSet {κ α : Type} [DecidableEq κ] : List (κ × α) → κ → α → List (κ × α)
  | [], k, v => [(k, v)]
  | (k2, v2) :: rest, k, v =>
      if k2 = k then (k2, v) :: rest else (k2, v2) :: dictSet rest k v

/-- Remove a key from an association list (used for file deletion in the
cache model). -/
def dictErase {κ α : Type} [DecidableEq κ] : List (κ × α) → κ → List (κ × α)
  | [], _ => []
  | (k2, v2) :: rest, k => if k2 = k then rest else (k2, v2) :: dictErase rest k

/-- Python `set.add` on a set modelled as a duplicate-free list in insertion
order. -/
def setAdd (s : List PyStr) (x : PyStr) : List PyStr :=
  if x ∈ s then s else s ++ [x]

/-! ## Dictionary disambiguator (src/src/JMDict.py) -/

/-- Priority bonus table, JMDict.py lines 9-18. -/
def PRI_BONUS : List (PyStr × Int) :=
  [("ichi1".toList, 1000), ("ichi2".toList, 500),
   ("news1".toList, 800), ("news2".toList, 400),
   ("spec1".toList, 600), ("spec2".toList, 300),
   ("gai1".toList, 100), ("gai2".toList, 50)]

/-- Decimal digit string to number. -/
def digitsToNat (cs : List Char) : Nat :=
  cs.foldl (fun a c => a * 10 + (c.toNat - 48)) 0

/-- Python `int(s)` as used on the tail of a priority tag
(JMDict.py line 110): an optional sign followed by at least one decimal
digit; anything else raises `ValueError` (`none`).  Surrounding whitespace
and underscore digit grouping, which cannot occur inside a JMdict priority
tag, are not modelled. -/
def pyInt : List Char → Option Int
  | [] => none
  | '-' :: rest =>
      if !rest.isEmpty && rest.all Char.isDigit then
        some (-(digitsToNat rest : Int)) else none
  | '+' :: rest =>
      if !rest.isEmpty && rest.all Char.isDigit then
        some (digitsToNat rest : Int) else none
  | cs =>
      if cs.all Char.isDigit then some (digitsToNat cs : Int) else none

/-- Score contributed by one priority tag: the loop body of `score_tags`,
JMDict.py lines 107-115.  A tag starting with "nf" contributes
`(49 - n) * 100` when its tail parses as an integer and 0 otherwise
(`ValueError` → `continue`); any other tag contributes its `PRI_BONUS`
weight, or 0 when absent from the table. -/
def tagScore (t : PyStr) : Int :=
  match t with
  | 'n' :: 'f' :: rest =>
      match pyInt rest with
      | some n => (49 - n) * 100
      | none => 0
  | _ =>
      match dictLookup PRI_BONUS t with
      | some b => b
      | none => 0

/-- `score_tags`, JMDict.py lines 105-116: sum of the per-tag scores. -/
def score_tags : List PyStr → Int
  | [] => 0
  | t :: rest => tagScore t + score_tags rest

/-- Membership in the character class of `KANA_RE` (JMDict.py line 20):
hiragana, katakana or the elongation mark. -/
def kanaChar (c : Char) : Bool :=
  ('ぁ' ≤ c && c ≤ 'ん') || ('ァ' ≤ c && c ≤ 'ン') || c == 'ー'

/-- `KANA_RE.fullmatch(search_word) is not None` (JMDict.py line 103):
the word is non-empty and consists entirely of kana/elongation characters. -/
def kanaOnlyWord (w : PyStr) : Bool :=
  !w.isEmpty && w.all kanaChar

structure JForm where
  form : PyStr
  pri : List PyStr
deriving DecidableEq

structure JSense where
  gloss : List PyStr
  pos : List PyStr
  misc : List PyStr
  field : List PyStr
  dialect : List PyStr
deriving DecidableEq

structure JEntry where
  kanji : List JForm
  reading : List JForm
  senses : List JSense
deriving DecidableEq

/-- `score_entry`, JMDict.py lines 118-133.  Note that the `kana_only`
flag computed at line 103 is never consulted here: kanji forms equal to the
search word are scored unconditionally. -/
def score_entry (search_word : PyStr) (e : JEntry) : Int :=
  let kscore := e.kanji.foldl
    (fun a k => if k.form = search_word then a + score_tags k.pri else a) 0
  let kmatched := e.kanji.any (fun k => k.form == search_word)
  let rscore := e.reading.foldl
    (fun a r => if r.form = search_word then a + score_tags r.pri else a) 0
  let rmatched := e.reading.any (fun r => r.form == search_word)
  if kmatched || rmatched then kscore + rscore
  else
    match e.reading with
    | [] => kscore + rscore
    | r :: _ => kscore + rscore + score_tags r.pri

inductive TieBreak where
  | all : TieBreak
  | defs : TieBreak
deriving DecidableEq

/-- Python `max` over a non-empty list given as head and tail. -/
def pyMax : Int → List Int → Int
  | a, [] => a
  | a, x :: xs => pyMax (max a x) xs

/-- Python `max(entries, key=lambda e: len(e.senses))`: the first entry of
maximal sense count (a later entry replaces the champion only when strictly
greater). -/
def pyMaxBySenses : JEntry → List JEntry → JEntry
  | b, [] => b
  | b, x :: xs =>
      if x.senses.length > b.senses.length then pyMaxBySenses x xs
      else pyMaxBySenses b xs

/-- JMDict.py line 135: every entry paired with its score. -/
def scoredEntries (entries : List JEntry) (w : PyStr) : List (JEntry × Int) :=
  entries.map (fun e => (e, score_entry w e))

/-- JMDict.py line 136: `max_score`.  Python `max` raises on an empty
sequence; the empty case is unreachable behind the line-100 early return and
is given the arbitrary value 0. -/
def maxEntryScore (entries : List JEntry) (w : PyStr) : Int :=
  match entries with
  | [] => 0
  | e0 :: rest => pyMax (score_entry w e0) (rest.map (fun e => score_entry w e))

/-- JMDict.py line 137: all entries achieving the maximal score. -/
def topEntries (entries : List JEntry) (w : PyStr) : List JEntry :=
  ((scoredEntries entries w).filter
    (fun p => p.2 == maxEntryScore entries w)).map Prod.fst

/-- `_best_entries`, JMDict.py lines 99-144.  The `kana_only` flag of
line 103 is dead code and has no counterpart here; the `tie_break`
validation of line 144 is represented by the `TieBreak` type.  The empty
branch under `defs` is unreachable (Python `max` would raise there). -/
def best_entries (entries : List JEntry) (w : PyStr) (tie_break : TieBreak) :
    List JEntry :=
  match entries with
  | [] => []
  | _ =>
    match tie_break with
    | .all => topEntries entries w
    | .defs =>
      match topEntries entries w with
      | [] => []
      | t :: ts => [pyMaxBySenses t ts]

def c1Word : PyStr := "あ".toList

def c1Entry : JEntry :=
  { kanji := [],
    reading := [{ form := "あ".toList, pri := [] }],
    senses := [{ gloss := [], pos := [], misc := [], field := [], dialect := [] }] }

def c3Word : PyStr := "猫".toList

def c3Entry : JEntry :=
  { kanji := [{ form := "猫".toList, pri := ["nf05".toList] }],
    reading := [],
    senses := [] }

/-- Two-digit "nf" priority tag for a rank below 100, as it appears in the
dictionary data ("nf05", "nf17", ...). -/
def nfTag (n : Nat) : PyStr :=
  ['n', 'f', Char.ofNat (48 + n / 10), Char.ofNat (48 + n % 10)]

def c4Word : PyStr := "あい".toList

def c4Entry : JEntry :=
  { kanji := [{ form := "あい".toList, pri := ["ichi1".toList] }],
    reading := [],
    senses := [] }

/-! ## Token cache (src/src/TokenCache.py) -/

/-- One token dictionary as produced by `sudachi_node_to_dict`
(TokenizeStep.py lines 281-293): keys "surface", "lemma", "base_form",
"reading", "pos".  The "lemma" key is rendered `lemmaStr` because `lemma`
is a Lean keyword. -/
structure Token where
  surface : PyStr
  lemmaStr : PyStr
  base_form : PyStr
  reading : PyStr
  pos : List PyStr
deriving DecidableEq

/-- One record of the mtime index, holding the keys "mtime" and "hash"
(TokenCache.py lines 110-113). -/
structure MtimeEntry where
  mtime : Int
  hash : PyStr
deriving DecidableEq

/-- A stored cache blob: either it deserializes to a payload whose
`"tokens"` field holds a token list, or deserialization fails
(gzip/JSON corruption). -/
inductive Blob where
  | good : List Token → Blob
  | corrupt : Blob
deriving DecidableEq

/-- The blob store directory: file name → file content. -/
abbrev CacheFS := List (PyStr × Blob)

/-- `_cache_path`, TokenCache.py lines 38-39 (the directory component is
constant and omitted). -/
def cache_path (key : PyStr) : PyStr := key ++ ".json.gz".toList

/-- `TokenCache.get`, TokenCache.py lines 49-63, relative to an abstract
key derivation `ck` standing for the external NFKC-normalize + SHA-256
composition of `_normalize_text` and `_compute_key`.  Returns the tokens
and the resulting blob store: a missing blob is a miss; a corrupt blob is
unlinked (`path.unlink`) and reported as a miss. -/
def cacheGet (ck : PyStr → PyStr) (fs : CacheFS) (text : PyStr) :
    Option (List Token) × CacheFS :=
  let path := cache_path (ck text)
  match dictLookup fs path with
  | none => (none, fs)
  | some (Blob.good ts) => (some ts, fs)
  | some Blob.corrupt => (none, dictErase fs path)

/-- `TokenCache.get_by_mtime`, TokenCache.py lines 84-100: consult the
mtime index, require an exact mtime match, then load the blob named by the
stored hash; any deserialization failure is swallowed
(`except Exception: return None`) — the blob is NOT deleted. -/
def get_by_mtime (idx : List (PyStr × MtimeEntry)) (fs : CacheFS)
    (path : PyStr) (mtime_ns : Int) : Option (List Token) × CacheFS :=
  match dictLookup idx path with
  | none => (none, fs)
  | some e =>
      if e.mtime ≠ mtime_ns then (none, fs)
      else
        match dictLookup fs (cache_path e.hash) with
        | none => (none, fs)
        | some (Blob.good ts) => (some ts, fs)
        | some Blob.corrupt => (none, fs)

/-- Modelled from the spec: `get_hash_by_mtime` is invoked by `tokenize`
(src/src/TokenizeStep.py line 75) together with `load_by_hash` (line 78)
and `flush_mtime_index` (line 259), but none of the three is defined in
src/src/TokenCache.py, which only carries the older `get_by_mtime`
returning the tokens themselves.  Spec §4.1: "looks up the in-memory mtime
index; returns the stored hash only if the stored mtime exactly matches;
otherwise absent". -/
def get_hash_by_mtime (idx : List (PyStr × MtimeEntry))
    (path : PyStr) (mtime_ns : Int) : Option PyStr :=
  match dictLookup idx path with
  | none => none
  | some e => if e.mtime = mtime_ns then some e.hash else none

def c9Hash : PyStr := "h1".toList

def c9Idx : List (PyStr × MtimeEntry) :=
  [("/a.txt".toList, { mtime := 5, hash := c9Hash })]

def c9FS : CacheFS := [(cache_path c9Hash, Blob.corrupt)]

/-! ## Sentence/word aggregator (src/src/TokenizeStep.py) -/

/-- `SENT_BOUNDARY` (TokenizeStep.py line 37): the sentinel substituted for
line breaks before tokenization. -/
def SENT_BOUNDARY : Char := '🐍'

def MAX_SENTENCES : Nat := 3
def MIN_SENTENCE_LENGTH : Nat := 7
def MAX_SENTENCE_LENGTH : Nat := 30

/-- Python `str.isspace()` / regex `\s` over the characters that can occur
here (both match the same set of Unicode whitespace code points). -/
def pyIsSpace (c : Char) : Bool :=
  (Char.ofNat 0x2000 ≤ c && c ≤ Char.ofNat 0x200A) ||
  [Char.ofNat 0x20, Char.ofNat 0x09, Char.ofNat 0x0A, Char.ofNat 0x0B,
   Char.ofNat 0x0C, Char.ofNat 0x0D, Char.ofNat 0x1C, Char.ofNat 0x1D,
   Char.ofNat 0x1E, Char.ofNat 0x1F, Char.ofNat 0x85, Char.ofNat 0xA0,
   Char.ofNat 0x1680, Char.ofNat 0x2028, Char.ofNat 0x2029,
   Char.ofNat 0x202F, Char.ofNat 0x205F, Char.ofNat 0x3000].contains c

/-- `NOT_ALLOWED_AT_SENTENCE_START` (TokenizeStep.py line 404). -/
def NOT_ALLOWED_AT_SENTENCE_START : List Char :=
  ['。', '、', '！', '？', 'ー', '・', '・', '「', '」', '）', ')', '』', '”',
   '>', '#', '%', '&', '+', '=', '*', '/', ':', ';', '@', '￥', '$', '^',
   '―', '_', '〜', '|', Char.ofNat 0x5C, '-', '】', Char.ofNat 0x27,
   Char.ofNat 0x22]

/-- The sentence-ending characters appended to a non-empty buffer
(TokenizeStep.py line 164). -/
def CLOSING_APPENDABLES : List Char :=
  ['。', '！', '？', 'ー', '）', ')', '』', '”', '%', '￥', '$', '〜', '】',
   Char.ofNat 0x27, Char.ofNat 0x22]

/-- Iteration/repetition marks (TokenizeStep.py line 385). -/
def ITERATION_MARKS : List Char := ['々', '〻', 'ゝ', 'ゞ', 'ヽ', 'ヾ']

/-- Common punctuation and symbols (TokenizeStep.py line 397). -/
def COMMON_PUNCT : List Char :=
  ['（', '(', '【', '『', '…', '‥', '〜', '〜', '“', '<']

/-- `is_japanese_char`, TokenizeStep.py lines 373-402. -/
def is_japanese_char (c : Char) : Bool :=
  c == SENT_BOUNDARY
  || ('぀' ≤ c && c ≤ 'ゟ')
  || ('゠' ≤ c && c ≤ 'ヿ')
  || ('･' ≤ c && c ≤ 'ﾟ')
  || ('一' ≤ c && c ≤ '鿿')
  || ITERATION_MARKS.contains c
  || ('０' ≤ c && c ≤ '９')
  || ('0' ≤ c && c ≤ '9')
  || ('Ａ' ≤ c && c ≤ 'Ｚ')
  || ('ａ' ≤ c && c ≤ 'ｚ')
  || ('A' ≤ c && c ≤ 'Z')
  || ('a' ≤ c && c ≤ 'z')
  || COMMON_PUNCT.contains c
  || pyIsSpace c
  || NOT_ALLOWED_AT_SENTENCE_START.contains c

/-- `sentence_endings` (TokenizeStep.py line 134). -/
def sentence_endings : List Char := ['。', '！', '？', SENT_BOUNDARY]

/-- Python truthiness of the source tag (`if tag:`): the tag is present and
non-empty.  The regex of TokenizeStep.py line 58 can in fact only produce
`None` or a non-empty string. -/
def tagTruthy : Option PyStr → Bool
  | none => false
  | some t => !t.isEmpty

/-- `kata_to_hira`, TokenizeStep.py lines 296-307: Python `None` for a
falsy argument (the early `return` with no value), otherwise each katakana
code point in U+30A1..U+30F3 is shifted down by 0x60. -/
def kataToHira (text : PyStr) : Option PyStr :=
  match text with
  | [] => none
  | cs => some (cs.map (fun ch =>
      if 0x30A1 ≤ ch.toNat ∧ ch.toNat ≤ 0x30F3 then Char.ofNat (ch.toNat - 0x60)
      else ch))

/-- A `Sentence` record (WordStats.py): frozen dataclass, structural
equality. -/
structure Sentence where
  text : PyStr
  tag : Option PyStr
  origin : PyStr
  surface_form : PyStr
deriving DecidableEq

/-- A `WordStats` record (WordStats.py).  `score` is a Python float that
this code only ever writes as 0.0, modelled as `Int`; `reading` is the
result of `kata_to_hira`, hence possibly Python `None`; `tags` is a set
modelled as a duplicate-free insertion-ordered list; the source field
`lemma` is rendered `lemmaStr` because `lemma` is a Lean keyword. -/
structure WordStats where
  index : Nat
  frequency : Nat
  score : Int
  reading : Option PyStr
  definition : PyStr
  tags : List PyStr
  sentences : List Sentence
  lemmaStr : PyStr
  pos : List PyStr
  invalid : Bool
deriving DecidableEq

/-- `sentence_exists`, TokenizeStep.py lines 264-265. -/
def sentence_exists (ws : WordStats) (sentence_text : PyStr)
    (tag : Option PyStr) : Bool :=
  ws.sentences.any (fun s => s.text == sentence_text && s.tag == tag)

/-- The mutable scan state of the `tokenize` main loop (TokenizeStep.py
lines 136-141): the word table, the three sentence buffers and the token
ordinal.  (`current_sentence_length` at line 139 is assigned once and never
read; it has no counterpart here.) -/
structure AggState where
  word_data : List (PyStr × WordStats)
  cur_tokens : List Char
  cur_lemmas : List PyStr
  cur_surfaces : List (PyStr × PyStr)
  token_index : Nat
deriving DecidableEq

/-- Flush a pending maximal whitespace run: a run of two or more characters
collapses to a single ASCII space, a shorter run is kept as-is.  `out` is
the reversed output accumulated so far, `p` the reversed pending run. -/
def flushWsRun (p : List Char) (out : List Char) : List Char :=
  if 2 ≤ p.length then ' ' :: out else p ++ out

/-- Accumulator pass for `collapseWs`. -/
def collapseWsAux : List Char → List Char → List Char → List Char
  | out, p, [] => (flushWsRun p out).reverse
  | out, p, c :: rest =>
      if pyIsSpace c then collapseWsAux out (c :: p) rest
      else collapseWsAux (c :: flushWsRun p out) [] rest

/-- Python `re.sub(r"\s\x7b2,\x7d", " ", sentence)` (TokenizeStep.py
line 175): every maximal run of at least two whitespace characters is
replaced by a single space. -/
def collapseWs (cs : List Char) : List Char :=
  collapseWsAux [] [] cs

/-- One step of the worst-sentence search loops (TokenizeStep.py
lines 203-206 and 209-212), with the loop filter `p` (the `s.tag == tag`
condition of the first loop, or always-true for the second): the champion
is replaced when the filter holds and either no champion exists yet or the
candidate text is strictly shorter. -/
def findWorstAux (p : Sentence → Bool) :
    Option (Sentence × Nat) → List Sentence → Option (Sentence × Nat)
  | acc, [] => acc
  | acc, s :: rest =>
      findWorstAux p
        (if (match acc with
             | none => p s
             | some (_, wl) => p s && decide (s.text.length < wl)) = true
         then some (s, s.text.length) else acc) rest

/-- The two-phase worst-sentence search (TokenizeStep.py lines 199-212):
when the tag is truthy, first restrict to sentences with the same tag; if
that finds nothing (or the tag is falsy), search all sentences. -/
def findWorst (tag : Option PyStr) (ss : List Sentence) :
    Option (Sentence × Nat) :=
  let phase1 :=
    if tagTruthy tag then findWorstAux (fun s => s.tag == tag) none ss
    else none
  match phase1 with
  | some r => some r
  | none => findWorstAux (fun _ => true) none ss

/-- The eviction branch (TokenizeStep.py lines 198-218), returning the
removed sentence and the updated list when a replacement happens, `none`
when the stored list is left alone.  `sentence_length` is the raw character
buffer length (line 176), not the length of the collapsed stored text. -/
def evictStep (ss : List Sentence) (tag : Option PyStr) (nw : Sentence)
    (sentence_length : Nat) : Option (Sentence × List Sentence) :=
  if sentence_length < MAX_SENTENCE_LENGTH then
    match findWorst tag ss with
    | some (w, wl) =>
        if sentence_length > wl then some (w, ss.erase w ++ [nw]) else none
    | none => none
  else none

/-- The body of the per-lemma attribution loop (TokenizeStep.py
lines 183-218) for one lemma. -/
def attributeLemma (sentence : PyStr) (sentence_length : Nat)
    (tag : Option PyStr) (origin : PyStr) (surfaces : List (PyStr × PyStr))
    (wd : List (PyStr × WordStats)) (l : PyStr) : List (PyStr × WordStats) :=
  match dictLookup wd l with
  | none => wd
  | some ws =>
    if sentence_exists ws sentence tag then wd
    else
      let surface_hl := (dictLookup surfaces l).getD []
      let nw : Sentence :=
        { text := sentence, tag := tag, origin := origin,
          surface_form := surface_hl }
      if ws.sentences.length < MAX_SENTENCES then
        dictSet wd l { ws with sentences := ws.sentences ++ [nw] }
      else
        match evictStep ws.sentences tag nw sentence_length with
        | some (_, ss2) => dictSet wd l { ws with sentences := ss2 }
        | none => wd

/-- The sentence-closing block (TokenizeStep.py lines 174-222): collapse
whitespace, discard a short sentence (the `continue` at line 179 skips the
buffer clearing!), otherwise attribute the sentence to every distinct
buffered lemma and clear the three buffers.  Python `set` iteration order
is unspecified; first-occurrence order is used here — the per-lemma updates
touch distinct keys, so the resulting table does not depend on the order. -/
def closeSentence (tag : Option PyStr) (origin : PyStr) (st : AggState) :
    AggState :=
  let sentence := collapseWs st.cur_tokens
  let sentence_length := st.cur_tokens.length
  if sentence_length < MIN_SENTENCE_LENGTH then st
  else
    let lemmas := st.cur_lemmas.foldl setAdd []
    let wd := lemmas.foldl
      (fun wd l => attributeLemma sentence sentence_length tag origin
        st.cur_surfaces wd l) st.word_data
    { st with word_data := wd, cur_tokens := [], cur_lemmas := [],
              cur_surfaces := [] }

/-- The per-character body of the inner scan loop (TokenizeStep.py
lines 153-222). -/
def processChar (tag : Option PyStr) (origin : PyStr) (st : AggState)
    (c : Char) : AggState :=
  if !is_japanese_char c then
    { st with cur_tokens := [], cur_lemmas := [], cur_surfaces := [] }
  else
    let st1 :=
      if c ≠ SENT_BOUNDARY then
        if !st.cur_tokens.isEmpty then
          if !sentence_endings.contains c then
            { st with cur_tokens := st.cur_tokens ++ [c] }
          else if CLOSING_APPENDABLES.contains c then
            { st with cur_tokens := st.cur_tokens ++ [c] }
          else st
        else
          if !pyIsSpace c && !NOT_ALLOWED_AT_SENTENCE_START.contains c then
            { st with cur_tokens := st.cur_tokens ++ [c] }
          else st
      else st
    if !sentence_endings.contains c then st1
    else closeSentence tag origin st1

/-- `SKIP_POS1` (TokenizeStep.py lines 18-26). -/
def SKIP_POS1 : List PyStr :=
  ["助詞".toList, "記号".toList, "補助記号".toList, "感動詞".toList,
   "接頭辞".toList, "接尾辞".toList, "代名詞".toList]

/-- `SKIP_POS1_POS2` (TokenizeStep.py lines 28-32). -/
def SKIP_POS1_POS2 : List (PyStr × PyStr) :=
  [("名詞".toList, "固有名詞".toList),
   ("名詞".toList, "代名詞".toList),
   ("感動詞".toList, "フィラー".toList)]

/-- The character class of `RE_SMALL_KANA_END` (TokenizeStep.py line 16). -/
def SMALL_KANA_END_SET : List Char :=
  ['っ', 'ゃ', 'ゅ', 'ょ', 'ァ', 'ィ', 'ゥ', 'ェ', 'ォ', 'ッ', 'ャ', 'ュ',
   'ョ', 'ー']

/-- `RE_SMALL_KANA_END.search(lemma)` succeeds exactly when the final
character falls in the class (the pattern is a class repetition anchored at
the end of the string). -/
def smallKanaEnd (lemma2 : PyStr) : Bool :=
  match lemma2.getLast? with
  | some c => SMALL_KANA_END_SET.contains c
  | none => false

/-- The single-kana-noise test (TokenizeStep.py lines 335-338). -/
def singleKanaNoise (lemma2 : PyStr) : Bool :=
  match lemma2 with
  | [c] => ('ぁ' ≤ c && c ≤ 'ん') || ('ァ' ≤ c && c ≤ 'ン')
  | _ => false

/-- Running state of the character-classification loop of `is_useless`
(TokenizeStep.py lines 340-362). -/
structure KanaScan where
  has_japanese : Bool
  kana_only : Bool
  all_katakana : Bool
  freq : List (Char × Nat)
  max_count : Nat

/-- The loop body of TokenizeStep.py lines 346-362. -/
def kanaScanStep (st : KanaScan) (c : Char) : KanaScan :=
  let st :=
    if !(('ァ' ≤ c && c ≤ 'ン') || c == 'ー') then
      { st with all_katakana := false }
    else st
  let st :=
    if ('一' ≤ c && c ≤ '龯') then
      { st with has_japanese := true, kana_only := false }
    else if ('ぁ' ≤ c && c ≤ 'ん') || ['ー', 'っ', 'ッ'].contains c then
      { st with has_japanese := true }
    else { st with kana_only := false }
  if st.kana_only then
    let count := (dictLookup st.freq c).getD 0 + 1
    let st := { st with freq := dictSet st.freq c count }
    if count > st.max_count then { st with max_count := count } else st
  else st

/-- The tail of `is_useless` after the early returns (TokenizeStep.py
lines 340-370).  The float comparison `max_count / len(lemma) > 0.6` is
modelled as the exact rational comparison `5 * max_count > 3 * len`: the
IEEE double nearest to 0.6 lies strictly below 3/5, and for the tiny
denominators involved (`len` is a lemma length) the correctly rounded
quotient can never cross it, so the two tests agree. -/
def uselessScan (lemma2 : PyStr) : Bool :=
  let s := lemma2.foldl kanaScanStep
    { has_japanese := false, kana_only := true, all_katakana := true,
      freq := [], max_count := 0 }
  if s.all_katakana || !s.has_japanese then true
  else if s.kana_only && decide (5 * s.max_count > 3 * lemma2.length) then true
  else false

/-- `token["base_form"] or token["lemma"]` (TokenizeStep.py lines 224 and
311). -/
def effLemma (t : Token) : PyStr :=
  if !t.base_form.isEmpty then t.base_form else t.lemmaStr

/-- `is_useless`, TokenizeStep.py lines 310-370, in the raising monad:
`none` models an uncaught exception — `lemma[-1]` raises `IndexError` on an
empty lemma (line 317), and `pos1, pos2, *_ = token["pos"]` raises
`ValueError` when the part-of-speech sequence has fewer than two segments
(line 322).  Note the small-tsu/elongation early return at lines 318-319
fires before the part-of-speech unpacking. -/
def is_useless (t : Token) : Option Bool :=
  let lemma2 := effLemma t
  match lemma2.getLast? with
  | none => none
  | some last =>
    if last = 'っ' ∨ last = 'ッ' ∨ last = 'ー' then some true
    else
      match t.pos with
      | pos1 :: pos2 :: _ =>
          some (if SKIP_POS1.contains pos1 then true
            else if SKIP_POS1_POS2.contains (pos1, pos2) then true
            else if smallKanaEnd lemma2 then true
            else if singleKanaNoise lemma2 then true
            else uselessScan lemma2)
      | _ => none

/-- TokenizeStep.py lines 235-257 for an accepted token: lemma and surface
bookkeeping, frequency increment or `WordStats` creation, tag recording. -/
def acceptToken (tag : Option PyStr) (st : AggState) (t : Token)
    (lemma2 : PyStr) : AggState :=
  let st := { st with cur_lemmas := st.cur_lemmas ++ [lemma2],
                      cur_surfaces := dictSet st.cur_surfaces lemma2 t.surface }
  match dictLookup st.word_data lemma2 with
  | some ws =>
      let ws := { ws with frequency := ws.frequency + 1 }
      let ws :=
        if tagTruthy tag then { ws with tags := setAdd ws.tags (tag.getD []) }
        else ws
      { st with word_data := dictSet st.word_data lemma2 ws }
  | none =>
      let ws : WordStats :=
        { index := st.token_index, frequency := 1, score := 0,
          reading := kataToHira t.reading, definition := [], tags := [],
          sentences := [], lemmaStr := lemma2, pos := t.pos,
          invalid := false }
      let ws :=
        if tagTruthy tag then { ws with tags := setAdd ws.tags (tag.getD []) }
        else ws
      { st with word_data := dictSet st.word_data lemma2 ws }

/-- TokenizeStep.py lines 224-257: the admission filter applied after the
character scan — skip on empty lemma, empty reading or a useless token,
otherwise accept.  `none` propagates an exception from `is_useless`. -/
def admitToken (tag : Option PyStr) (st1 : AggState) (t : Token) :
    Option AggState :=
  if (effLemma t).isEmpty then some st1
  else if t.reading.isEmpty then some st1
  else
    match is_useless t with
    | none => none
    | some true => some st1
    | some false => some (acceptToken tag st1 t (effLemma t))

/-- The per-token body of the `tokenize` main loop (TokenizeStep.py
lines 146-257): ordinal bump, character scan, then admission. -/
def processToken (tag : Option PyStr) (origin : PyStr) (st : AggState)
    (t : Token) : Option AggState :=
  admitToken tag
    (t.surface.foldl (processChar tag origin)
      { st with token_index := st.token_index + 1 }) t

/-- The whole main loop (TokenizeStep.py lines 146-257) over a token list. -/
def runTokens (tag : Option PyStr) (origin : PyStr) :
    AggState → List Token → Option AggState
  | st, [] => some st
  | st, t :: ts =>
      match processToken tag origin st t with
      | none => none
      | some st2 => runTokens tag origin st2 ts

/-- The scan state at the start of a run (`tokenize` called with
`word_data=None`). -/
def initAggState : AggState :=
  { word_data := [], cur_tokens := [], cur_lemmas := [], cur_surfaces := [],
    token_index := 0 }

/-! ## Shared lemmas about the aggregator -/

/-- The sentence-list well-formedness of one `WordStats` record: at most
`MAX_SENTENCES` stored sentences, no two sharing `(text, tag)`. -/
def invWS (ws : WordStats) : Prop :=
  ws.sentences.length ≤ MAX_SENTENCES ∧
  ws.sentences.Pairwise (fun a b => ¬(a.text = b.text ∧ a.tag = b.tag))

instance (ws : WordStats) : Decidable (invWS ws) := by
  unfold invWS
  infer_instance

/-- Sentence-list well-formedness of every record in the word table. -/
def invTable (wd : List (PyStr × WordStats)) : Prop :=
  ∀ p ∈ wd, invWS p.2

instance (wd : List (PyStr × WordStats)) : Decidable (invTable wd) := by
  unfold invTable
  infer_instance

/-! ## Concrete inputs and claim theorems for the aggregator -/

def c5Token : Token :=
  { surface := "あいう。".toList, lemmaStr := [], base_form := [],
    reading := [], pos := [] }

def c5WitState : AggState :=
  { initAggState with cur_tokens := "あいうえおかき".toList }

def c6Origin : PyStr := "novel.txt".toList

def c6Lemma : PyStr := "わかる".toList

def c6S7 : Sentence :=
  { text := "うみへいこう。".toList, tag := none, origin := c6Origin,
    surface_form := [] }

def c6S8 : Sentence :=
  { text := "やまへいこう?。".toList, tag := none, origin := c6Origin,
    surface_form := [] }

def c6S9 : Sentence :=
  { text := "かわへいこうよ。".toList, tag := none, origin := c6Origin,
    surface_form := [] }

def c6WS : WordStats :=
  { index := 1, frequency := 1, score := 0, reading := some c6Lemma,
    definition := [], tags := [], sentences := [c6S7, c6S8, c6S9],
    lemmaStr := c6Lemma, pos := [], invalid := false }

def c6State : AggState :=
  { word_data := [(c6Lemma, c6WS)],
    cur_tokens := ['わ', ' ', ' ', 'か', ' ', ' ', 'る', '。'],
    cur_lemmas := [c6Lemma],
    cur_surfaces := [],
    token_index := 5 }

def c6New : Sentence :=
  { text := ['わ', ' ', 'か', ' ', 'る', '。'], tag := none,
    origin := c6Origin, surface_form := [] }

def c7T1 : Token :=
  { surface := [], lemmaStr := "わかる".toList, base_form := "わかる".toList,
    reading := "わかる".toList, pos := ["動詞".toList, "一般".toList] }

def c7T2 : Token :=
  { surface := ['わ', ' ', ' ', 'か', ' ', ' ', 'る', '。'], lemmaStr := [],
    base_form := [], reading := [], pos := [] }

def c7WitState : AggState :=
  { initAggState with
    cur_tokens := "あい".toList,
    word_data := [(c6Lemma, c6WS)] }

def c8WitToken : Token :=
  { surface := [], lemmaStr := [], base_form := [], reading := [],
    pos := [] }

def c8WitState2 : AggState := { initAggState with token_index := 1 }

def c10Token : Token :=
  { surface := [], lemmaStr := "っ".toList, base_form := "っ".toList,
    reading := "っ".toList, pos := [] }

def c10WitToken : Token :=
  { surface := [], lemmaStr := "わかる".toList, base_form := "わかる".toList,
    reading := "わかる".toList, pos := ["動詞".toList, "一般".toList] }

/-! ## Theorems -/

theorem pyMax_mem (xs : List Int) : ∀ a : Int, pyMax a xs = a ∨ pyMax a xs ∈ xs := by
  induction xs with
  | nil => intro a; left; rfl
  | cons x xs ih =>
    intro a
    rcases ih (max a x) with h | h
    · rcases max_choice a x with hm | hm
      · left; rw [pyMax, h, hm]
      · right; rw [pyMax, h, hm]; exact List.mem_cons_self x xs
    · right; exact List.mem_cons_of_mem x h

theorem maxEntryScore_attained (e0 : JEntry) (rest : List JEntry) (w : PyStr) :
    ∃ e ∈ e0 :: rest, score_entry w e = maxEntryScore (e0 :: rest) w := by
  rcases pyMax_mem (rest.map (fun e => score_entry w e)) (score_entry w e0) with h | h
  · exact ⟨e0, List.mem_cons_self e0 rest, h.symm⟩
  · rcases List.mem_map.mp h with ⟨e, he, hv⟩
    exact ⟨e, List.mem_cons_of_mem e0 he, hv⟩

theorem topEntries_ne_nil (e0 : JEntry) (rest : List JEntry) (w : PyStr) :
    topEntries (e0 :: rest) w ≠ [] := by
  rcases maxEntryScore_attained e0 rest w with ⟨e, he, hv⟩
  have hmem : (e, score_entry w e) ∈ scoredEntries (e0 :: rest) w :=
    List.mem_map.mpr ⟨e, he, rfl⟩
  have hkeep : (e, score_entry w e) ∈
      (scoredEntries (e0 :: rest) w).filter
        (fun p => p.2 == maxEntryScore (e0 :: rest) w) :=
    List.mem_filter.mpr ⟨hmem, by simpa using hv⟩
  intro hnil
  have : e ∈ topEntries (e0 :: rest) w := List.mem_map.mpr ⟨_, hkeep, rfl⟩
  rw [hnil] at this
  exact List.not_mem_nil e this

/-- C1 counterexample: a single candidate entry whose only reading form
equals the lookup word and carries no priority tags scores 0, so the
maximum entry score is 0 — yet `_best_entries` returns that entry under
both tie-break modes instead of the empty sequence: the code has no
`max_score == 0` early return. -/
theorem c1_counterexample :
    maxEntryScore [c1Entry] c1Word = 0 ∧
    best_entries [c1Entry] c1Word TieBreak.all = [c1Entry] ∧
    best_entries [c1Entry] c1Word TieBreak.defs = [c1Entry] := by
  decide

/-- C1 (amended): `_best_entries` never returns the empty sequence on a
non-empty candidate list — even when the maximum entry score is 0 it
returns the (zero-scoring) top entries under ALL, and the richest of them
under DEFS. -/
theorem c1_amended_nonempty_result (entries : List JEntry) (w : PyStr)
    (tb : TieBreak) (h : entries ≠ []) :
    best_entries entries w tb ≠ [] := by
  match entries with
  | [] => exact absurd rfl h
  | e0 :: rest =>
    cases tb with
    | all =>
      show topEntries (e0 :: rest) w ≠ []
      exact topEntries_ne_nil e0 rest w
    | defs =>
      show (match topEntries (e0 :: rest) w with
            | [] => []
            | t :: ts => [pyMaxBySenses t ts]) ≠ []
      cases htop : topEntries (e0 :: rest) w with
      | nil => exact absurd htop (topEntries_ne_nil e0 rest w)
      | cons t ts => simp

/-- C1 witness: the amended theorem applied at a concrete input. -/
theorem c1_witness : best_entries [c1Entry] c1Word TieBreak.all ≠ [] :=
  c1_amended_nonempty_result [c1Entry] c1Word TieBreak.all (by decide)

/-- C3 counterexample: a priority tag "nf05" on a kanji form equal to the
lookup word contributes `(49 - 5) * 100 = 4400`, not the claimed
`(50 - 5) * 100 = 4500` (JMDict.py line 111 uses `49 - n`). -/
theorem c3_counterexample :
    score_entry c3Word c3Entry = 4400 ∧
    score_entry c3Word c3Entry ≠ (50 - 5) * 100 := by
  decide

/-- C3 (amended): a priority tag of the shape "nf" followed by a two-digit
rank N contributes exactly `(49 - N) * 100` to the tag sum of the form
carrying it. -/
theorem c3_amended_nf_contribution (n : Nat) (h : n ≤ 99) (rest : List PyStr) :
    score_tags (nfTag n :: rest) = (49 - (n : Int)) * 100 + score_tags rest := by
  have hts : tagScore (nfTag n) = (49 - (n : Int)) * 100 := by
    interval_cases n <;> decide
  rw [score_tags, hts]

/-- C3 witness: the amended theorem applied at rank 5. -/
theorem c3_witness :
    score_tags (nfTag 5 :: []) = (49 - (5 : Nat)) * 100 + score_tags [] :=
  c3_amended_nf_contribution 5 (by decide) []

/-- C4 (code_bug, evaluated at the failing input): the lookup word "あい"
is kana-only, yet the kanji form with literal text "あい" still contributes
its `ichi1` bonus of 1000 to the entry score — `kana_only` is computed at
JMDict.py line 103 but never used by `score_entry`, while the spec (and the
earlier variant `tango_miner.py` line 387) skips kanji forms for kana-only
lookups. -/
theorem c4_kanji_scored_despite_kana_only :
    kanaOnlyWord c4Word = true ∧ score_entry c4Word c4Entry = 1000 := by
  decide

/-- C2 (confirmed, spec-modelled): `get_hash_by_mtime` returns a stored
content hash exactly when the mtime index holds an entry for the path whose
stored mtime equals the queried mtime; in every other case it returns
absent. -/
theorem c2_get_hash_by_mtime_iff (idx : List (PyStr × MtimeEntry))
    (path : PyStr) (mtime_ns : Int) (h : PyStr) :
    get_hash_by_mtime idx path mtime_ns = some h ↔
      ∃ e : MtimeEntry, dictLookup idx path = some e ∧
        e.mtime = mtime_ns ∧ e.hash = h := by
  unfold get_hash_by_mtime
  cases hl : dictLookup idx path with
  | none => simp
  | some e =>
    show (if e.mtime = mtime_ns then some e.hash else none) = some h ↔
      ∃ e2 : MtimeEntry, some e = some e2 ∧ e2.mtime = mtime_ns ∧ e2.hash = h
    by_cases hm : e.mtime = mtime_ns
    · rw [if_pos hm]
      constructor
      · intro hh; exact ⟨e, rfl, hm, Option.some.inj hh⟩
      · rintro ⟨e2, he2, hm2, hh2⟩
        cases Option.some.inj he2
        rw [hh2]
    · rw [if_neg hm]
      constructor
      · intro hh; cases hh
      · rintro ⟨e2, he2, hm2, hh2⟩
        cases Option.some.inj he2
        exact absurd hm2 hm

/-- C9 counterexample: a cache lookup through `get_by_mtime` whose stored
blob exists but fails to deserialize returns absent while leaving the
corrupt blob file in place — the delete-on-corruption behaviour of `get`
(TokenCache.py line 62) is absent from `get_by_mtime` (lines 99-100). -/
theorem c9_counterexample :
    get_by_mtime c9Idx c9FS "/a.txt".toList 5 = (none, c9FS) ∧
    dictLookup c9FS (cache_path c9Hash) = some Blob.corrupt := by
  decide

/-- C9 (amended): deserialization failure is never propagated, only
reported as a miss; `get` additionally unlinks the corrupt blob, while
`get_by_mtime` leaves the blob store untouched. -/
theorem c9_amended_corruption_is_a_miss (ck : PyStr → PyStr) (fs : CacheFS)
    (text : PyStr) (idx : List (PyStr × MtimeEntry)) (p : PyStr)
    (m : Int) (e : MtimeEntry)
    (hget : dictLookup fs (cache_path (ck text)) = some Blob.corrupt)
    (hidx : dictLookup idx p = some e) (hm : e.mtime = m)
    (hblob : dictLookup fs (cache_path e.hash) = some Blob.corrupt) :
    cacheGet ck fs text = (none, dictErase fs (cache_path (ck text))) ∧
    get_by_mtime idx fs p m = (none, fs) := by
  constructor
  · simp only [cacheGet]
    rw [hget]
  · unfold get_by_mtime
    rw [hidx]
    simp [hm, hblob]

/-- C9 witness: the amended theorem applied at a concrete corrupt store. -/
theorem c9_witness :
    cacheGet (fun _ => c9Hash) c9FS "x".toList =
      (none, dictErase c9FS (cache_path c9Hash)) ∧
    get_by_mtime c9Idx c9FS "/a.txt".toList 5 = (none, c9FS) :=
  c9_amended_corruption_is_a_miss (fun _ => c9Hash) c9FS "x".toList
    c9Idx "/a.txt".toList 5 { mtime := 5, hash := c9Hash }
    (by decide) (by decide) (by decide) (by decide)

theorem dictLookup_mem {κ α : Type} [DecidableEq κ] (d : List (κ × α))
    (k : κ) (v : α) (h : dictLookup d k = some v) : (k, v) ∈ d := by
  induction d with
  | nil => cases h
  | cons p rest ih =>
    obtain ⟨k2, v2⟩ := p
    by_cases hk : k2 = k
    · rw [dictLookup, if_pos hk] at h
      subst hk
      cases Option.some.inj h
      exact List.mem_cons_self _ _
    · rw [dictLookup, if_neg hk] at h
      exact List.mem_cons_of_mem _ (ih h)

theorem dictSet_mem {κ α : Type} [DecidableEq κ] (d : List (κ × α))
    (k : κ) (v : α) (p : κ × α) (h : p ∈ dictSet d k v) :
    p ∈ d ∨ p = (k, v) := by
  induction d with
  | nil =>
    rw [dictSet] at h
    right
    simpa using h
  | cons q rest ih =>
    obtain ⟨k2, v2⟩ := q
    by_cases hk : k2 = k
    · rw [dictSet, if_pos hk] at h
      subst hk
      rcases List.mem_cons.mp h with h1 | h1
      · right; exact h1
      · left; exact List.mem_cons_of_mem _ h1
    · rw [dictSet, if_neg hk] at h
      rcases List.mem_cons.mp h with h1 | h1
      · left; rw [h1]; exact List.mem_cons_self _ _
      · rcases ih h1 with h2 | h2
        · left; exact List.mem_cons_of_mem _ h2
        · right; exact h2

theorem invTable_dictSet {wd : List (PyStr × WordStats)} {k : PyStr}
    {v : WordStats} (h : invTable wd) (hv : invWS v) :
    invTable (dictSet wd k v) := by
  intro p hp
  rcases dictSet_mem wd k v p hp with h1 | h1
  · exact h p h1
  · rw [h1]; exact hv

theorem findWorstAux_spec (p : Sentence → Bool) (ss : List Sentence) :
    ∀ acc w wl, findWorstAux p acc ss = some (w, wl) →
      acc = some (w, wl) ∨ (wl = w.text.length ∧ w ∈ ss) := by
  induction ss with
  | nil =>
    intro acc w wl h
    left
    exact h
  | cons s rest ih =>
    intro acc w wl h
    cases acc with
    | none =>
      by_cases hp : p s = true
      · replace h : findWorstAux p (some (s, s.text.length)) rest
            = some (w, wl) := by simpa [findWorstAux, hp] using h
        rcases ih _ w wl h with h1 | h1
        · right
          cases Option.some.inj h1
          exact ⟨rfl, List.mem_cons_self _ _⟩
        · right; exact ⟨h1.1, List.mem_cons_of_mem _ h1.2⟩
      · replace h : findWorstAux p none rest = some (w, wl) := by
          simpa [findWorstAux, hp] using h
        rcases ih _ w wl h with h1 | h1
        · left; exact h1
        · right; exact ⟨h1.1, List.mem_cons_of_mem _ h1.2⟩
    | some pr =>
      obtain ⟨w0, wl0⟩ := pr
      by_cases hb : (p s && decide (s.text.length < wl0)) = true
      · replace h : findWorstAux p (some (s, s.text.length)) rest
            = some (w, wl) := by simpa [findWorstAux, hb] using h
        rcases ih _ w wl h with h1 | h1
        · right
          cases Option.some.inj h1
          exact ⟨rfl, List.mem_cons_self _ _⟩
        · right; exact ⟨h1.1, List.mem_cons_of_mem _ h1.2⟩
      · replace h : findWorstAux p (some (w0, wl0)) rest = some (w, wl) := by
          simpa [findWorstAux, hb] using h
        rcases ih _ w wl h with h1 | h1
        · left; exact h1
        · right; exact ⟨h1.1, List.mem_cons_of_mem _ h1.2⟩

theorem findWorst_spec (tag : Option PyStr) (ss : List Sentence)
    (w : Sentence) (wl : Nat) (h : findWorst tag ss = some (w, wl)) :
    wl = w.text.length ∧ w ∈ ss := by
  rw [findWorst] at h
  by_cases htag : tagTruthy tag = true
  · simp only [htag, if_true] at h
    cases hp1 : findWorstAux (fun s => s.tag == tag) none ss with
    | some r =>
      rw [hp1] at h
      cases Option.some.inj h
      rcases findWorstAux_spec _ ss none w wl hp1 with h1 | h1
      · cases h1
      · exact h1
    | none =>
      rw [hp1] at h
      rcases findWorstAux_spec _ ss none w wl h with h1 | h1
      · cases h1
      · exact h1
  · simp only [htag, if_false] at h
    rcases findWorstAux_spec _ ss none w wl h with h1 | h1
    · cases h1
    · exact h1

theorem evictStep_spec (ss : List Sentence) (tag : Option PyStr)
    (nw : Sentence) (slen : Nat) (w : Sentence) (ss2 : List Sentence)
    (h : evictStep ss tag nw slen = some (w, ss2)) :
    w ∈ ss ∧ w.text.length < slen ∧ ss2 = ss.erase w ++ [nw] := by
  rw [evictStep] at h
  by_cases hmax : slen < MAX_SENTENCE_LENGTH
  · rw [if_pos hmax] at h
    cases hf : findWorst tag ss with
    | none => rw [hf] at h; cases h
    | some r =>
      obtain ⟨w0, wl0⟩ := r
      rw [hf] at h
      replace h : (if slen > wl0 then some (w0, ss.erase w0 ++ [nw]) else none)
          = some (w, ss2) := h
      by_cases hgt : slen > wl0
      · rw [if_pos hgt] at h
        injection h with h12
        injection h12 with hw hss
        subst hw
        obtain ⟨hwl, hmem⟩ := findWorst_spec tag ss w0 wl0 hf
        subst hwl
        exact ⟨hmem, hgt, hss.symm⟩
      · rw [if_neg hgt] at h; cases h
  · rw [if_neg hmax] at h; cases h

theorem sentence_exists_false_forall {ws : WordStats} {s : PyStr}
    {tag : Option PyStr} (h : sentence_exists ws s tag = false) :
    ∀ x ∈ ws.sentences, ¬(x.text = s ∧ x.tag = tag) := by
  intro x hx hc
  have h2 : ws.sentences.any (fun s2 => s2.text == s && s2.tag == tag)
      = false := h
  have hall := List.any_eq_false.mp h2 x hx
  rcases hc with ⟨h3, h4⟩
  rw [h3, h4] at hall
  simp at hall

theorem invWS_append {ws : WordStats} {nw : Sentence}
    (h : invWS ws) (hlen : ws.sentences.length < MAX_SENTENCES)
    (hnd : ∀ x ∈ ws.sentences, ¬(x.text = nw.text ∧ x.tag = nw.tag)) :
    invWS { ws with sentences := ws.sentences ++ [nw] } := by
  constructor
  · show (ws.sentences ++ [nw]).length ≤ MAX_SENTENCES
    rw [List.length_append]
    simp only [List.length_singleton]
    omega
  · show (ws.sentences ++ [nw]).Pairwise
      (fun a b => ¬(a.text = b.text ∧ a.tag = b.tag))
    refine List.pairwise_append.mpr ⟨h.2, List.pairwise_singleton _ _, ?_⟩
    intro a ha b hb
    simp only [List.mem_singleton] at hb
    subst hb
    exact hnd a ha

theorem invWS_evict {ws : WordStats} {nw w : Sentence} {ss2 : List Sentence}
    (h : invWS ws)
    (hnd : ∀ x ∈ ws.sentences, ¬(x.text = nw.text ∧ x.tag = nw.tag))
    (hw : w ∈ ws.sentences) (hss2 : ss2 = ws.sentences.erase w ++ [nw]) :
    invWS { ws with sentences := ss2 } := by
  subst hss2
  constructor
  · show (ws.sentences.erase w ++ [nw]).length ≤ MAX_SENTENCES
    rw [List.length_append, List.length_erase_of_mem hw]
    have h1 : 0 < ws.sentences.length :=
      List.length_pos.mpr (List.ne_nil_of_mem hw)
    have h2 := h.1
    simp only [List.length_singleton]
    omega
  · show (ws.sentences.erase w ++ [nw]).Pairwise
      (fun a b => ¬(a.text = b.text ∧ a.tag = b.tag))
    refine List.pairwise_append.mpr
      ⟨h.2.sublist (List.erase_sublist _ _), List.pairwise_singleton _ _, ?_⟩
    intro a ha b hb
    simp only [List.mem_singleton] at hb
    subst hb
    exact hnd a ((List.erase_sublist w ws.sentences).mem ha)

theorem attributeLemma_preserves (s : PyStr) (slen : Nat) (tag : Option PyStr)
    (origin : PyStr) (surf : List (PyStr × PyStr))
    (wd : List (PyStr × WordStats)) (l : PyStr) (h : invTable wd) :
    invTable (attributeLemma s slen tag origin surf wd l) := by
  rw [attributeLemma]
  cases hlk : dictLookup wd l with
  | none => exact h
  | some ws =>
    have hws : invWS ws := h (l, ws) (dictLookup_mem wd l ws hlk)
    by_cases hex : sentence_exists ws s tag = true
    · simp only [hex, if_true]
      exact h
    · have hexf : sentence_exists ws s tag = false :=
        Bool.not_eq_true _ ▸ Bool.of_not_eq_true hex
      have hnd := sentence_exists_false_forall hexf
      simp only [hexf, Bool.false_eq_true, if_false]
      by_cases hlen : ws.sentences.length < MAX_SENTENCES
      · simp only [hlen, if_true]
        exact invTable_dictSet h (invWS_append hws hlen hnd)
      · simp only [hlen, if_false]
        cases hev : evictStep ws.sentences tag
            { text := s, tag := tag, origin := origin,
              surface_form := (dictLookup surf l).getD [] } slen with
        | none => exact h
        | some pr =>
          obtain ⟨w, ss2⟩ := pr
          obtain ⟨hmem, hlt, hshape⟩ := evictStep_spec _ _ _ _ _ _ hev
          exact invTable_dictSet h (invWS_evict hws hnd hmem hshape)

theorem foldl_attributeLemma_preserves (s : PyStr) (slen : Nat)
    (tag : Option PyStr) (origin : PyStr) (surf : List (PyStr × PyStr)) :
    ∀ (ls : List PyStr) (wd : List (PyStr × WordStats)), invTable wd →
      invTable (ls.foldl
        (fun wd l => attributeLemma s slen tag origin surf wd l) wd)
  | [], _, h => h
  | l :: ls, wd, h =>
      foldl_attributeLemma_preserves s slen tag origin surf ls _
        (attributeLemma_preserves s slen tag origin surf wd l h)

theorem closeSentence_preserves (tag : Option PyStr) (origin : PyStr)
    (st : AggState) (h : invTable st.word_data) :
    invTable (closeSentence tag origin st).word_data := by
  rw [closeSentence]
  by_cases hlen : st.cur_tokens.length < MIN_SENTENCE_LENGTH
  · simp only [hlen, if_true]
    exact h
  · simp only [hlen, if_false]
    exact foldl_attributeLemma_preserves _ _ _ _ _ _ _ h

theorem processChar_preserves (tag : Option PyStr) (origin : PyStr)
    (st : AggState) (c : Char) (h : invTable st.word_data) :
    invTable (processChar tag origin st c).word_data := by
  rw [processChar]
  split_ifs <;>
    first
      | exact h
      | exact closeSentence_preserves tag origin _ h

theorem foldlChars_preserves (tag : Option PyStr) (origin : PyStr) :
    ∀ (cs : List Char) (st : AggState), invTable st.word_data →
      invTable (cs.foldl (processChar tag origin) st).word_data
  | [], _, h => h
  | c :: cs, st, h =>
      foldlChars_preserves tag origin cs _
        (processChar_preserves tag origin st c h)

theorem acceptToken_preserves (tag : Option PyStr) (st : AggState)
    (t : Token) (l : PyStr) (h : invTable st.word_data) :
    invTable (acceptToken tag st t l).word_data := by
  rw [acceptToken]
  cases hlk : dictLookup st.word_data l with
  | some ws =>
    have hws : invWS ws := h (l, ws) (dictLookup_mem _ l ws hlk)
    by_cases htag : tagTruthy tag = true
    · simp only [hlk, htag, if_true]
      exact invTable_dictSet h ⟨hws.1, hws.2⟩
    · simp only [hlk, htag, Bool.false_eq_true, if_false]
      exact invTable_dictSet h ⟨hws.1, hws.2⟩
  | none =>
    by_cases htag : tagTruthy tag = true
    · simp only [hlk, htag, if_true]
      exact invTable_dictSet h ⟨Nat.zero_le _, List.Pairwise.nil⟩
    · simp only [hlk, htag, Bool.false_eq_true, if_false]
      exact invTable_dictSet h ⟨Nat.zero_le _, List.Pairwise.nil⟩

theorem admitToken_preserves (tag : Option PyStr) (st1 st2 : AggState)
    (t : Token) (h1 : invTable st1.word_data)
    (hp : admitToken tag st1 t = some st2) : invTable st2.word_data := by
  unfold admitToken at hp
  by_cases hl : (effLemma t).isEmpty = true
  · rw [if_pos hl] at hp
    have hq := Option.some.inj hp
    subst hq
    exact h1
  · rw [if_neg hl] at hp
    by_cases hr : t.reading.isEmpty = true
    · rw [if_pos hr] at hp
      have hq := Option.some.inj hp
      subst hq
      exact h1
    · rw [if_neg hr] at hp
      cases hu : is_useless t with
      | none => rw [hu] at hp; exact Option.noConfusion hp
      | some b =>
        rw [hu] at hp
        cases b with
        | true =>
          replace hp : some st1 = some st2 := hp
          have hq := Option.some.inj hp
          subst hq
          exact h1
        | false =>
          replace hp : some (acceptToken tag st1 t (effLemma t))
              = some st2 := hp
          have hq := Option.some.inj hp
          subst hq
          exact acceptToken_preserves tag st1 t _ h1

/-- C8 (confirmed): every aggregation step keeps, for every `WordStats`
entry, `0 ≤ len(sentences) ≤ 3` and the absence of two stored sentences
sharing the same `(text, tag)` pair: the append path (guarded by the
`len < MAX_SENTENCES` check and the `sentence_exists` duplicate check) and
the eviction path (removal plus append of a non-duplicate) both preserve
the invariant, as does pure frequency/tag bookkeeping. -/
theorem c8_sentences_invariant (tag : Option PyStr) (origin : PyStr)
    (st st2 : AggState) (t : Token) (h : invTable st.word_data)
    (hp : processToken tag origin st t = some st2) :
    invTable st2.word_data := by
  unfold processToken at hp
  exact admitToken_preserves tag _ st2 t
    (foldlChars_preserves tag origin t.surface
      { st with token_index := st.token_index + 1 } h) hp

/-- C5 counterexample: running the aggregation loop on a token whose
surface is "あいう。" processes the closing character '。' with a buffer of
length 4 (below the 7-character minimum); the `continue` at
TokenizeStep.py line 179 then skips the buffer clearing at lines 220-222,
so after the closing character the character buffer still holds
"あいう。" instead of being empty. -/
theorem c5_counterexample :
    sentence_endings.contains '。' = true ∧
    (runTokens none [] initAggState [c5Token]).map AggState.cur_tokens =
      some "あいう。".toList ∧
    "あいう。".toList ≠ ([] : List Char) := by
  decide

/-- C5 (amended): after processing a closing character the three buffers
are cleared exactly when the accumulated raw buffer had reached the minimum
sentence length (whether or not any word received the sentence); when the
closed sentence is discarded as too short, the whole state — buffers
included — is left untouched and accumulation continues. -/
theorem c5_amended_buffer_clearing (tag : Option PyStr) (origin : PyStr)
    (st : AggState) :
    (MIN_SENTENCE_LENGTH ≤ st.cur_tokens.length →
      (closeSentence tag origin st).cur_tokens = [] ∧
      (closeSentence tag origin st).cur_lemmas = [] ∧
      (closeSentence tag origin st).cur_surfaces = []) ∧
    (st.cur_tokens.length < MIN_SENTENCE_LENGTH →
      closeSentence tag origin st = st) := by
  constructor
  · intro h
    have hn : ¬ st.cur_tokens.length < MIN_SENTENCE_LENGTH := Nat.not_lt.mpr h
    refine ⟨?_, ?_, ?_⟩ <;> simp only [closeSentence, if_neg hn]
  · intro h
    simp only [closeSentence, if_pos h]

/-- C5 witness: the amended theorem applied at a concrete 7-character
buffer. -/
theorem c5_witness :
    (closeSentence none [] c5WitState).cur_tokens = [] ∧
    (closeSentence none [] c5WitState).cur_lemmas = [] ∧
    (closeSentence none [] c5WitState).cur_surfaces = [] :=
  (c5_amended_buffer_clearing none [] c5WitState).1 (by decide)

/-- C6 counterexample: closing a raw buffer of 8 characters against a full
3-element sentence list whose worst entry has 7 characters triggers the
eviction (8 > 7 compares the RAW buffer length, TokenizeStep.py line 214),
but the stored text is the whitespace-collapsed sentence of only 6
characters — the removed sentence is LONGER than the one inserted in its
place, and the inserted sentence is not strictly longer than the worst
candidate. -/
theorem c6_counterexample :
    (dictLookup (closeSentence none c6Origin c6State).word_data c6Lemma).map
      WordStats.sentences = some [c6S8, c6S9, c6New] ∧
    c6New.text.length < c6S7.text.length := by
  decide

/-- C6 (amended): whenever the eviction step replaces a stored sentence,
the removed sentence is one of the stored ones, its text is strictly
shorter than the RAW (pre-whitespace-collapse) character-buffer length of
the new sentence, and the stored list becomes the old list with the worst
entry erased and the new sentence appended; the removed text may however
exceed the stored (collapsed) text of the inserted sentence. -/
theorem c6_amended_eviction (ss : List Sentence) (tag : Option PyStr)
    (nw : Sentence) (slen : Nat) (w : Sentence) (ss2 : List Sentence)
    (h : evictStep ss tag nw slen = some (w, ss2)) :
    w ∈ ss ∧ w.text.length < slen ∧ ss2 = ss.erase w ++ [nw] :=
  evictStep_spec ss tag nw slen w ss2 h

/-- C6 witness: the amended theorem applied at the concrete eviction. -/
theorem c6_witness :
    c6S7 ∈ [c6S7, c6S8, c6S9] ∧ c6S7.text.length < 8 ∧
      [c6S8, c6S9, c6New] = [c6S7, c6S8, c6S9].erase c6S7 ++ [c6New] :=
  c6_amended_eviction [c6S7, c6S8, c6S9] none c6New 8 c6S7
    [c6S8, c6S9, c6New] (by decide)

/-- C7 counterexample: a full aggregation run in which the raw buffer at
close has 8 characters (passing the minimum-length check of
TokenizeStep.py line 178) but the whitespace-collapsed stored text has only
6 — so a `Sentence` with `len(text) = 6 < MIN_SENTENCE_LENGTH` ends up
stored in a `WordStats.sentences` list. -/
theorem c7_counterexample :
    ((runTokens none [] initAggState [c7T1, c7T2]).map (fun st =>
      (dictLookup st.word_data "わかる".toList).map (fun ws =>
        ws.sentences.map (fun s => s.text.length)))) = some (some [6]) ∧
    6 < MIN_SENTENCE_LENGTH := by
  decide

/-- C7 (amended): a closed sentence whose RAW character-buffer length is
below `MIN_SENTENCE_LENGTH` is discarded and attributed to no word — the
word table is left unchanged.  (The stored text of an attributed sentence
is the whitespace-collapse of a buffer of length at least
`MIN_SENTENCE_LENGTH`, and can itself be shorter than the minimum.) -/
theorem c7_amended_short_close_no_attribution (tag : Option PyStr)
    (origin : PyStr) (st : AggState)
    (h : st.cur_tokens.length < MIN_SENTENCE_LENGTH) :
    (closeSentence tag origin st).word_data = st.word_data := by
  simp only [closeSentence, if_pos h]

/-- C7 witness: the amended theorem applied at a concrete 2-character
buffer. -/
theorem c7_witness :
    (closeSentence none [] c7WitState).word_data = c7WitState.word_data :=
  c7_amended_short_close_no_attribution none [] c7WitState (by decide)

/-- C8 witness: the invariant-preservation theorem applied at a concrete
step. -/
theorem c8_witness : invTable c8WitState2.word_data :=
  c8_sentences_invariant none [] initAggState c8WitState2 c8WitToken
    (by decide) (by decide)

/-- C10 counterexample: a token whose lemma is the single small-tsu "っ"
and whose part-of-speech sequence is empty does NOT raise in `is_useless`:
the small-tsu early return at TokenizeStep.py lines 318-319 fires before
the part-of-speech unpacking at line 322, so the function returns True
instead of raising `ValueError`. -/
theorem c10_counterexample :
    c10Token.pos.length < 2 ∧ effLemma c10Token ≠ [] ∧
    is_useless c10Token = some true := by
  decide

/-- C10 (amended): `is_useless` is total for a non-empty lemma and at least
two part-of-speech segments; on an empty lemma it raises (`lemma[-1]`,
IndexError); on a shorter part-of-speech sequence it raises unless the
lemma ends in small-tsu or the elongation mark, in which case it returns
True before the unpacking; and the aggregation loop never calls it on an
empty lemma or empty reading — those tokens are skipped, so the loop never
propagates such an exception. -/
theorem c10_amended_totality (t : Token) (tag : Option PyStr)
    (origin : PyStr) (st : AggState) :
    (effLemma t ≠ [] → 2 ≤ t.pos.length → (is_useless t).isSome = true) ∧
    (effLemma t = [] → is_useless t = none) ∧
    (effLemma t ≠ [] → t.pos.length < 2 →
      ¬((effLemma t).getLast? = some 'っ' ∨
        (effLemma t).getLast? = some 'ッ' ∨
        (effLemma t).getLast? = some 'ー') →
      is_useless t = none) ∧
    (effLemma t = [] → (processToken tag origin st t).isSome = true) ∧
    (t.reading = [] → (processToken tag origin st t).isSome = true) := by
  refine ⟨?_, ?_, ?_, ?_, ?_⟩
  · intro hne hpos
    cases hgl : (effLemma t).getLast? with
    | none => exact absurd (List.getLast?_eq_none_iff.mp hgl) hne
    | some last =>
      match hposs : t.pos with
      | [] => rw [hposs] at hpos; cases hpos
      | [p1] => rw [hposs] at hpos; simp at hpos
      | p1 :: p2 :: rest =>
        simp only [is_useless, hgl, hposs]
        by_cases hsm : last = 'っ' ∨ last = 'ッ' ∨ last = 'ー'
        · rw [if_pos hsm]; rfl
        · rw [if_neg hsm]; rfl
  · intro he
    simp only [is_useless, he, List.getLast?_eq_none_iff.mpr rfl]
  · intro hne hpos hnsm
    cases hgl : (effLemma t).getLast? with
    | none => exact absurd (List.getLast?_eq_none_iff.mp hgl) hne
    | some last =>
      have hsm : ¬(last = 'っ' ∨ last = 'ッ' ∨ last = 'ー') := by
        intro hc
        apply hnsm
        rcases hc with hc | hc | hc <;> rw [hgl, hc]
        · exact Or.inl rfl
        · exact Or.inr (Or.inl rfl)
        · exact Or.inr (Or.inr rfl)
      match hposs : t.pos with
      | [] => simp only [is_useless, hgl, if_neg hsm, hposs]
      | [p1] => simp only [is_useless, hgl, if_neg hsm, hposs]
      | p1 :: p2 :: rest =>
        rw [hposs] at hpos
        exact absurd hpos (by simp)
  · intro he
    have : (effLemma t).isEmpty = true := by rw [he]; rfl
    simp only [processToken, admitToken, this, if_true, Option.isSome_some]
  · intro hr
    have hre : t.reading.isEmpty = true := by rw [hr]; rfl
    by_cases hl : (effLemma t).isEmpty = true
    · simp only [processToken, admitToken, hl, if_true, Option.isSome_some]
    · simp only [processToken, admitToken, hl, hre, Bool.false_eq_true,
        if_false, if_true, Option.isSome_some]

/-- C10 witness: the amended theorem applied at a concrete well-formed
token. -/
theorem c10_witness : (is_useless c10WitToken).isSome = true :=
  (c10_amended_totality c10WitToken none [] initAggState).1
    (by decide) (by decide)
